import Mathlib

/-!
Verification of the scoutfs transaction commit core (src/trans.c).

The development shallowly embeds the transaction subsystem: the shared
`trans_info` admission state, per-task reservations (`journal_info`),
the hold/track/release operations, the commit work function and its
ordered pipeline, and the sync wait protocol.  Machine integers are
modelled as `Int`/`Nat`; the C `unsigned` fields never wrap in reachable
states (we prove they stay non-negative), so no modular reduction is
needed.  External collaborators that live outside trans.c
(`scoutfs_item_dirty_fits_single`, `scoutfs_seg_fits_single`, the
pipeline step implementations) are parameters of the model.
-/

set_option maxHeartbeats 1000000

namespace ScoutfsTrans

/-- Dirty item-slot count and value-byte count (`struct scoutfs_item_count`).
Signed, since deletions contribute negative deltas at track time. -/
structure ItemCount where
  items : Int
  vals : Int
  deriving Repr, DecidableEq

/-- The reservation magic sentinel (trans.c:275). -/
def SCOUTFS_RESERVATION_MAGIC : Nat := 0xd57cd13b

/-- Per-holder reservation (`struct scoutfs_reservation`, trans.c:276-281).
`holders` is C `unsigned`; we use `Int` and prove non-negativity in
reachable states. -/
structure Reservation where
  magic : Nat
  holders : Int
  reserved : ItemCount
  actual : ItemCount
  deriving Repr, DecidableEq

/-- A freshly kzalloc-ed reservation with the magic set
(trans.c:364-369): all counts start at zero. -/
def newRsv : Reservation :=
  { magic := SCOUTFS_RESERVATION_MAGIC, holders := 0,
    reserved := { items := 0, vals := 0 }, actual := { items := 0, vals := 0 } }

/-- Shared admission state (`struct trans_info`, trans.c:60-66), normally
protected by `tri->lock`.  The C fields are `unsigned`; we use `Int` and
prove non-negativity in reachable states. -/
structure TransInfo where
  reserved_items : Int
  reserved_vals : Int
  holders : Int
  writing : Bool
  deriving Repr, DecidableEq

/-- The event counters touched by trans.c. -/
structure Counters where
  trans_commit_timer : Nat
  trans_commit_full : Nat
  trans_commit_fsync : Nat
  trans_level0_seg_writes : Nat
  trans_level0_seg_write_bytes : Nat
  deriving Repr, DecidableEq

/-- The per-task `current->journal_info` slots, modelled as an association
list from task (actor) ids to reservations.  A task with no entry has a
NULL `journal_info`. -/
abbrev RsvMap := List (Nat × Reservation)

/-- Keys (task ids) of the reservation map. -/
def keys (l : RsvMap) : List Nat := l.map Prod.fst

/-- Reading a task's `journal_info` slot. -/
def lookupRsv : RsvMap → Nat → Option Reservation
  | [], _ => none
  | p :: rest, a => if p.1 = a then some p.2 else lookupRsv rest a

/-- Clearing a task's `journal_info` slot (kfree + NULL store). -/
def removeRsv : RsvMap → Nat → RsvMap
  | [], _ => []
  | p :: rest, a => if p.1 = a then removeRsv rest a else p :: removeRsv rest a

/-- Overwriting a task's reservation in place (a store through the
`journal_info` pointer in C; re-keyed at the front of the list here). -/
def modifyRsv (l : RsvMap) (a : Nat) (r : Reservation) : RsvMap :=
  (a, r) :: removeRsv l a

/-- Sum of a per-reservation quantity over all slots. -/
def sumBy (f : Reservation → Int) (l : RsvMap) : Int :=
  l.foldr (fun p acc => f p.2 + acc) 0

/-- errno for an invalid argument. -/
def EINVAL : Int := 22
/-- errno for an allocation failure. -/
def ENOMEM : Int := 12
/-- errno produced by `wait_event_interruptible` when a signal cuts the
wait short (the spec calls this `Interrupted`). -/
def ERESTARTSYS : Int := 512

/-- Whole mount-visible state of the subsystem: the `trans_info`, the
per-task reservation slots, and the `scoutfs_sb_info` transaction fields
used by trans.c (`trans_task`, `trans_write_count`, `trans_write_ret`,
`trans_deadline_expired`, the pending work flag, `trans_seq`) plus the
counters.  `warn_count` counts `WARN_ON_ONCE` firings in
`scoutfs_trans_track_item` (a loud assertion in C, a counter here). -/
structure SysState where
  tri : TransInfo
  rsvs : RsvMap
  trans_task : Option Nat
  counters : Counters
  work_pending : Bool
  deadline_expired : Bool
  write_count : Nat
  write_ret : Int
  dirty : Bool
  trans_seq : Nat
  warn_count : Nat
  deriving Repr, DecidableEq

/-- State right after `scoutfs_setup_trans`: everything zeroed. -/
def initState : SysState :=
  { tri := { reserved_items := 0, reserved_vals := 0, holders := 0, writing := false },
    rsvs := [], trans_task := none,
    counters := { trans_commit_timer := 0, trans_commit_full := 0,
                  trans_commit_fsync := 0, trans_level0_seg_writes := 0,
                  trans_level0_seg_write_bytes := 0 },
    work_pending := false, deadline_expired := false,
    write_count := 0, write_ret := 0, dirty := false, trans_seq := 0,
    warn_count := 0 }

/-- `queue_trans_work` (trans.c:209-213): clear the deadline hint and
request an immediate run of the commit work. -/
def queue_trans_work (st : SysState) : SysState :=
  { st with deadline_expired := false, work_pending := true }

/-- `scoutfs_trans_restart_sync_deadline` (trans.c:258-265): set the
deadline hint and re-arm the delayed work for `TRANS_SYNC_DELAY`. -/
def scoutfs_trans_restart_sync_deadline (st : SysState) : SysState :=
  { st with deadline_expired := true, work_pending := false }

/-- Shallow embedding of `acquired_hold` (trans.c:289-342): one attempt,
under the lock, to hold the transaction for `current` with item count
`cnt`.  `fits` stands for the external `scoutfs_item_dirty_fits_single`.
The reservation slot is guaranteed by the caller (`scoutfs_hold_trans`);
a missing slot would be a C NULL dereference and is modelled as a failed
attempt. -/
def acquired_hold (fits : Int → Int → Bool) (current : Nat) (cnt : ItemCount)
    (st : SysState) : Bool × SysState :=
  match lookupRsv st.rsvs current with
  | none => (false, st)
  | some rsv =>
    if rsv.holders ≠ 0 then
      -- use a caller's existing reservation: rsv->holders++, tri->holders++
      (true, { st with
        rsvs := modifyRsv st.rsvs current { rsv with holders := rsv.holders + 1 },
        tri := { st.tri with holders := st.tri.holders + 1 } })
    else if st.tri.writing then
      -- wait until the writing thread is finished
      (false, st)
    else
      -- the locals items/vals of the C function are inlined here
      if fits (st.tri.reserved_items + cnt.items) (st.tri.reserved_vals + cnt.vals) then
        (true, { st with
          tri := { st.tri with
                   reserved_items := st.tri.reserved_items + cnt.items,
                   reserved_vals := st.tri.reserved_vals + cnt.vals,
                   holders := st.tri.holders + 1 },
          rsvs := modifyRsv st.rsvs current
            { rsv with reserved := cnt, holders := rsv.holders + 1 } })
      else
        (false, queue_trans_work
          { st with counters := { st.counters with
              trans_commit_full := st.counters.trans_commit_full + 1 } })

/-- Result of one pass through `scoutfs_hold_trans`: either the call
returns with a code, or the task goes to sleep on `trans_hold_wq` and
will retry `acquired_hold` when woken (`wait_event_interruptible`). -/
inductive HoldOutcome where
  | done (ret : Int)
  | blocked
  deriving Repr, DecidableEq

/-- One pass of the `wait_event_interruptible(..., acquired_hold(...))`
loop in `scoutfs_hold_trans` (trans.c:374-380): the condition is checked
first, so an immediately successful `acquired_hold` returns 0 even with
a signal pending; otherwise a pending signal aborts the wait with
`-ERESTARTSYS`, freeing a reservation that never acquired a hold. -/
def holdAttempt (fits : Int → Int → Bool) (current : Nat) (cnt : ItemCount)
    (signal : Bool) (st : SysState) : HoldOutcome × SysState :=
  match acquired_hold fits current cnt st with
  | (true, st1) => (.done 0, st1)
  | (false, st1) =>
    if signal then
      match lookupRsv st1.rsvs current with
      | some r =>
        if r.holders = 0 then
          (.done (-ERESTARTSYS), { st1 with rsvs := removeRsv st1.rsvs current })
        else (.done (-ERESTARTSYS), st1)
      | none => (.done (-ERESTARTSYS), st1)
    else (.blocked, st1)

/-- Shallow embedding of `scoutfs_hold_trans` (trans.c:344-381).
`seg_fits` stands for the external `scoutfs_seg_fits_single`; `signal`
says whether a signal is pending for the task, and `allocFails` whether
the kzalloc of a fresh reservation fails. -/
def scoutfs_hold_trans (fits seg_fits : Int → Int → Bool) (current : Nat)
    (cnt : ItemCount) (signal allocFails : Bool) (st : SysState) :
    HoldOutcome × SysState :=
  if cnt.items ≤ 0 ∨ cnt.vals < 0 then (.done (-EINVAL), st)
  else if !(seg_fits cnt.items cnt.vals) then (.done (-EINVAL), st)
  else if st.trans_task = some current then (.done 0, st)
  else
    match lookupRsv st.rsvs current with
    | none =>
      if allocFails then (.done (-ENOMEM), st)
      else holdAttempt fits current cnt signal
        { st with rsvs := (current, newRsv) :: st.rsvs }
    | some _ => holdAttempt fits current cnt signal st

/-- Shallow embedding of `scoutfs_release_trans` (trans.c:433-470).  The
`BUG_ON` guards (missing reservation, non-positive holder counts) crash
the kernel in C; they are modelled as no-ops and proved unreachable from
valid states. -/
def scoutfs_release_trans (current : Nat) (st : SysState) : SysState :=
  if st.trans_task = some current then st
  else
    match lookupRsv st.rsvs current with
    | none => st
    | some rsv =>
      if rsv.holders ≤ 0 ∨ st.tri.holders ≤ 0 then st
      else
        -- the unconditional tri->holders decrement of the C function is
        -- merged into both branches of the last-hold test
        if rsv.holders - 1 = 0 then
          { st with
            tri := { st.tri with
                     reserved_items := st.tri.reserved_items - rsv.reserved.items,
                     reserved_vals := st.tri.reserved_vals - rsv.reserved.vals,
                     holders := st.tri.holders - 1 },
            rsvs := removeRsv st.rsvs current }
        else
          { st with
            tri := { st.tri with holders := st.tri.holders - 1 },
            rsvs := modifyRsv st.rsvs current
                      { rsv with holders := rsv.holders - 1 } }

/-- Shallow embedding of `scoutfs_trans_track_item` (trans.c:405-425).
The returned flag records whether a `WARN_ON_ONCE` fired because the new
`actual` exceeds `reserved` in either component; a missing reservation is
a C `BUG_ON` modelled as a no-op. -/
def scoutfs_trans_track_item (current : Nat) (items vals : Int)
    (st : SysState) : SysState × Bool :=
  if st.trans_task = some current then (st, false)
  else
    match lookupRsv st.rsvs current with
    | none => (st, false)
    | some rsv =>
      if rsv.reserved.items < rsv.actual.items + items ∨
          rsv.reserved.vals < rsv.actual.vals + vals then
        ({ st with
           rsvs := modifyRsv st.rsvs current
             { rsv with actual := { items := rsv.actual.items + items,
                                    vals := rsv.actual.vals + vals } },
           warn_count := st.warn_count + 1 }, true)
      else
        ({ st with
           rsvs := modifyRsv st.rsvs current
             { rsv with actual := { items := rsv.actual.items + items,
                                    vals := rsv.actual.vals + vals } } }, false)

/-- `scoutfs_trans_held` (trans.c:388-393). -/
def scoutfs_trans_held (current : Nat) (st : SysState) : Bool :=
  match lookupRsv st.rsvs current with
  | some r => r.magic == SCOUTFS_RESERVATION_MAGIC
  | none => false

/-- `struct write_attempt` (trans.c:183-186): a waiter's snapshot of
`trans_write_count` plus the captured result. -/
structure WriteAttempt where
  count : Nat
  ret : Int
  deriving Repr, DecidableEq

/-- `write_attempted` (trans.c:189-202): the wait condition of
`scoutfs_trans_sync`, evaluated against the current `trans_write_count`
and `trans_write_ret`; on success it captures the result. -/
def write_attempted (write_count : Nat) (write_ret : Int) (a : WriteAttempt) :
    Bool × WriteAttempt :=
  if a.count < write_count then (true, { a with ret := write_ret }) else (false, a)

/-- The `wait_event_interruptible(trans_write_wq, write_attempted(...))`
loop: `obs` is the sequence of `(trans_write_count, trans_write_ret)`
pairs the waiter observes at successive wakeups; running out of
observations without the condition holding models a signal interrupting
the wait (`-ERESTARTSYS`). -/
def waitWriteAttempted (a : WriteAttempt) : List (Nat × Int) → Int
  | [] => -ERESTARTSYS
  | (wc, wr) :: rest =>
    match write_attempted wc wr a with
    | (true, a1) => a1.ret
    | (false, a1) => waitWriteAttempted a1 rest

/-- Shallow embedding of `scoutfs_trans_sync` (trans.c:223-247): the
snapshot of `trans_write_count` is taken from `st` before the work is
kicked; a waiting caller then observes the `obs` sequence. -/
def scoutfs_trans_sync (wait : Bool) (obs : List (Nat × Int)) (st : SysState) :
    SysState × Int :=
  if !wait then (queue_trans_work st, 0)
  else
    let attempt : WriteAttempt := { count := st.write_count, ret := 0 }
    (queue_trans_work st, waitWriteAttempted attempt obs)

/-- The steps of the commit pipeline (trans.c:134-142), one constructor
per call in the `?:` chain. -/
inductive Step where
  | inodeWritebackSync
  | allocSegno
  | segAlloc
  | itemDirtySeg
  | segSubmitWrite
  | inodeWritebackNoSync
  | bioWaitComp
  | recordSegment
  | advanceSeq
  deriving Repr, DecidableEq

/-- The pipeline in source order (trans.c:134-142). -/
def pipelineSteps : List Step :=
  [.inodeWritebackSync, .allocSegno, .segAlloc, .itemDirtySeg,
   .segSubmitWrite, .inodeWritebackNoSync, .bioWaitComp,
   .recordSegment, .advanceSeq]

/-- The `?:` error chain: run steps in order until the first one returns
non-zero; the result is the executed steps (in order) and the final
return code.  `stepRet` gives each external call's return value. -/
def runSteps (stepRet : Step → Int) : List Step → List Step × Int
  | [] => ([], 0)
  | s :: rest =>
    if stepRet s = 0 then
      let (t, r) := runSteps stepRet rest
      (s :: t, r)
    else ([s], stepRet s)

/-- Environment of one commit work run: the return codes of the external
pipeline calls, the bytes of the written segment
(`scoutfs_seg_total_bytes`), the sequence number the server hands out on
`advance_seq`, and the identity of the worker task running the commit. -/
structure PipelineEnv where
  stepRet : Step → Int
  segBytes : Nat
  newSeq : Nat
  worker : Nat

/-- The return code of one commit attempt, as the `?:` chain computes it
(trans.c:126-160): pipeline result when dirty, the bare `advance_seq`
result at an expired deadline, otherwise 0. -/
def commitAttemptRet (env : PipelineEnv) (st : SysState) : Int :=
  if st.dirty then (runSteps env.stepRet pipelineSteps).2
  else if st.deadline_expired then env.stepRet .advanceSeq
  else 0

/-- The external calls one commit attempt performs, in order
(trans.c:126-160): the `?:` pipeline when dirty, the bare `advance_seq`
at an expired deadline, nothing otherwise. -/
def commitAttemptTrace (env : PipelineEnv) (st : SysState) : List Step :=
  if st.dirty then (runSteps env.stepRet pipelineSteps).1
  else if st.deadline_expired then [Step.advanceSeq]
  else []

/-- Shallow embedding of `scoutfs_trans_write_func` (trans.c:107-181)
from the point where the holders have drained (the `wait_event` at
trans.c:121 has returned; `drained_holders` left `writing` true and
`trans_task` names the worker).  `st.dirty` models the external
`scoutfs_item_has_dirty`.  Modelled from the spec: the item store's
dirty set is drained by a fully successful pipeline and preserved by a
failed one ("If there are write errors then blocks are kept dirty in
memory and will be written again at the next sync", trans.c:104-105);
trans.c itself never clears it.  Returns the new state and the list of
pipeline steps that executed. -/
def scoutfs_trans_write_func (env : PipelineEnv) (st : SysState) :
    SysState × List Step :=
  let st0 := { st with trans_task := some env.worker,
                       tri := { st.tri with writing := true },
                       work_pending := false }
  let ret := commitAttemptRet env st0
  let st1 :=
    if st0.dirty then
      let c0 := if st0.deadline_expired then
          { st0 with counters := { st0.counters with
              trans_commit_timer := st0.counters.trans_commit_timer + 1 } }
        else st0
      if ret = 0 then
        { c0 with
          dirty := false,
          trans_seq := env.newSeq,
          counters := { c0.counters with
                        trans_level0_seg_writes :=
                          c0.counters.trans_level0_seg_writes + 1,
                        trans_level0_seg_write_bytes :=
                          c0.counters.trans_level0_seg_write_bytes + env.segBytes } }
      else c0
    else if st0.deadline_expired then
      if ret = 0 then { st0 with trans_seq := env.newSeq } else st0
    else st0
  let st2 := { st1 with write_count := st1.write_count + 1, write_ret := ret,
                        tri := { st1.tri with writing := false },
                        trans_task := none }
  (scoutfs_trans_restart_sync_deadline st2, commitAttemptTrace env st0)

/-- `scoutfs_file_fsync` (trans.c:249-256): bump the fsync counter and
delegate to a waiting sync. -/
def scoutfs_file_fsync (obs : List (Nat × Int)) (st : SysState) :
    SysState × Int :=
  scoutfs_trans_sync true obs
    { st with counters := { st.counters with
        trans_commit_fsync := st.counters.trans_commit_fsync + 1 } }

/-- One operation of the concurrent system, tagged with the acting task.
`hold`, `release` and `track` are the writer-side calls; `drain` is one
`drained_holders` attempt by the commit worker (trans.c:119-121: it
records `trans_task` and sets `writing`), and `writeEnd` is the commit
worker releasing the writer gate (trans.c:172-178). -/
inductive Op where
  | hold (actor : Nat) (cnt : ItemCount) (signal allocFails : Bool)
  | release (actor : Nat)
  | track (actor : Nat) (items vals : Int)
  | drain (worker : Nat)
  | writeEnd
  deriving Repr

/-- Apply one operation to the state. -/
def applyOp (fits seg_fits : Int → Int → Bool) (st : SysState) : Op → SysState
  | .hold a cnt signal allocFails =>
    (scoutfs_hold_trans fits seg_fits a cnt signal allocFails st).2
  | .release a => scoutfs_release_trans a st
  | .track a i v => (scoutfs_trans_track_item a i v st).1
  | .drain w => { st with trans_task := some w,
                          tri := { st.tri with writing := true } }
  | .writeEnd => { st with trans_task := none,
                           tri := { st.tri with writing := false } }

/-- Run a finite sequence of operations from the freshly set-up state. -/
def runOps (fits seg_fits : Int → Int → Bool) (ops : List Op) : SysState :=
  ops.foldl (applyOp fits seg_fits) initState

/-! ### Association-list lemmas for the reservation slots -/

theorem lookupRsv_eq_none_iff (l : RsvMap) (a : Nat) :
    lookupRsv l a = none ↔ a ∉ keys l := by
  induction l with
  | nil => simp [lookupRsv, keys]
  | cons p rest ih =>
    by_cases h : p.1 = a
    · simp [lookupRsv, keys, h]
    · simp only [lookupRsv, keys, List.map_cons, List.mem_cons, if_neg h]
      rw [ih]
      simp [keys]
      intro hq
      omega

theorem lookupRsv_mem {l : RsvMap} {a : Nat} {r : Reservation}
    (h : lookupRsv l a = some r) : (a, r) ∈ l := by
  induction l with
  | nil => simp [lookupRsv] at h
  | cons p rest ih =>
    by_cases hp : p.1 = a
    · simp only [lookupRsv, if_pos hp] at h
      cases h
      have hp2 : (a, p.2) = p := by rw [← hp]
      rw [hp2]
      exact List.mem_cons_self _ _
    · simp only [lookupRsv, if_neg hp] at h
      exact List.mem_cons_of_mem _ (ih h)

theorem notMem_keys_removeRsv (l : RsvMap) (a : Nat) :
    a ∉ keys (removeRsv l a) := by
  induction l with
  | nil => simp [removeRsv, keys]
  | cons p rest ih =>
    by_cases h : p.1 = a
    · simpa [removeRsv, h] using ih
    · simp only [removeRsv, if_neg h, keys, List.map_cons, List.mem_cons]
      rintro (hq | hq)
      · exact h hq.symm
      · exact ih hq

theorem removeRsv_eq_of_notMem {l : RsvMap} {a : Nat} (h : a ∉ keys l) :
    removeRsv l a = l := by
  induction l with
  | nil => rfl
  | cons p rest ih =>
    simp only [keys, List.map_cons, List.mem_cons] at h
    push_neg at h
    have h1 : ¬ p.1 = a := fun hq => h.1 hq.symm
    have h2 : removeRsv rest a = rest := ih (by simpa [keys] using h.2)
    simp only [removeRsv, if_neg h1, h2]

theorem keys_removeRsv_sublist (l : RsvMap) (a : Nat) :
    (keys (removeRsv l a)).Sublist (keys l) := by
  induction l with
  | nil => simp [removeRsv, keys]
  | cons p rest ih =>
    by_cases h : p.1 = a
    · simp only [removeRsv, if_pos h, keys, List.map_cons]
      exact ih.cons _
    · simp only [removeRsv, if_neg h, keys, List.map_cons]
      exact ih.cons₂ _

theorem nodup_keys_removeRsv {l : RsvMap} (a : Nat)
    (h : (keys l).Nodup) : (keys (removeRsv l a)).Nodup :=
  (keys_removeRsv_sublist l a).nodup h

theorem nodup_keys_modifyRsv {l : RsvMap} (a : Nat) (r : Reservation)
    (h : (keys l).Nodup) : (keys (modifyRsv l a r)).Nodup := by
  simp only [modifyRsv, keys, List.map_cons, List.nodup_cons]
  exact ⟨notMem_keys_removeRsv l a, nodup_keys_removeRsv a h⟩

theorem mem_removeRsv {p : Nat × Reservation} {l : RsvMap} {a : Nat}
    (h : p ∈ removeRsv l a) : p ∈ l := by
  induction l with
  | nil => simp [removeRsv] at h
  | cons q rest ih =>
    by_cases hq : q.1 = a
    · simp only [removeRsv, if_pos hq] at h
      exact List.mem_cons_of_mem _ (ih h)
    · simp only [removeRsv, if_neg hq, List.mem_cons] at h
      rcases h with h | h
      · exact h ▸ List.mem_cons_self _ _
      · exact List.mem_cons_of_mem _ (ih h)

theorem mem_modifyRsv {p : Nat × Reservation} {l : RsvMap} {a : Nat}
    {r : Reservation} (h : p ∈ modifyRsv l a r) : p = (a, r) ∨ p ∈ l := by
  simp only [modifyRsv, List.mem_cons] at h
  rcases h with h | h
  · exact Or.inl h
  · exact Or.inr (mem_removeRsv h)

theorem sumBy_removeRsv (f : Reservation → Int) {l : RsvMap} {a : Nat}
    {r : Reservation} (hnd : (keys l).Nodup) (h : lookupRsv l a = some r) :
    sumBy f (removeRsv l a) = sumBy f l - f r := by
  induction l with
  | nil => simp [lookupRsv] at h
  | cons p rest ih =>
    simp only [keys, List.map_cons, List.nodup_cons] at hnd
    by_cases hp : p.1 = a
    · simp only [lookupRsv, if_pos hp] at h
      cases h
      have hrest : removeRsv rest a = rest :=
        removeRsv_eq_of_notMem (by rw [← hp]; exact hnd.1)
      simp only [removeRsv, if_pos hp, hrest, sumBy, List.foldr_cons]
      ring
    · simp only [lookupRsv, if_neg hp] at h
      simp only [removeRsv, if_neg hp, sumBy, List.foldr_cons]
      have := ih hnd.2 h
      simp only [sumBy] at this
      rw [this]
      ring

theorem sumBy_modifyRsv (f : Reservation → Int) {l : RsvMap} {a : Nat}
    {r : Reservation} (r' : Reservation) (hnd : (keys l).Nodup)
    (h : lookupRsv l a = some r) :
    sumBy f (modifyRsv l a r') = sumBy f l - f r + f r' := by
  simp only [modifyRsv, sumBy, List.foldr_cons]
  have := sumBy_removeRsv f hnd h
  simp only [sumBy] at this
  rw [this]
  ring

theorem sumBy_filter_eq (f : Reservation → Int) (p : Nat × Reservation → Bool)
    (l : RsvMap) (h : ∀ q ∈ l, p q = false → f q.2 = 0) :
    sumBy f (l.filter p) = sumBy f l := by
  induction l with
  | nil => simp [sumBy]
  | cons q rest ih =>
    have hrest := ih (fun q hq => h q (List.mem_cons_of_mem _ hq))
    cases hpq : p q with
    | true =>
      simp only [List.filter_cons, hpq, if_true, sumBy, List.foldr_cons]
      simp only [sumBy] at hrest
      rw [hrest]
    | false =>
      have hz : f q.2 = 0 := h q (List.mem_cons_self _ _) hpq
      simp only [List.filter_cons, hpq, Bool.false_eq_true, if_false]
      simp only [sumBy, List.foldr_cons] at hrest ⊢
      rw [hrest, hz]
      ring

/-! ### The reservation-accounting invariant -/

/-- The reachable-state invariant of the admission state: the
`trans_info` totals equal the componentwise sums over the reservation
slots, each task has at most one slot, every slot is well formed (a slot
that has acquired no hold still carries its kzalloc-zeroed counts), and
as long as no track warning has fired every slot's `actual` is bounded
by its `reserved`. -/
structure Inv (st : SysState) : Prop where
  nodup : (keys st.rsvs).Nodup
  items_eq : st.tri.reserved_items = sumBy (fun r => r.reserved.items) st.rsvs
  vals_eq : st.tri.reserved_vals = sumBy (fun r => r.reserved.vals) st.rsvs
  holders_eq : st.tri.holders = sumBy (fun r => r.holders) st.rsvs
  entries : ∀ a r, (a, r) ∈ st.rsvs → 0 ≤ r.holders ∧ 0 ≤ r.reserved.items ∧
      0 ≤ r.reserved.vals ∧
      (r.holders = 0 → r.reserved.items = 0 ∧ r.reserved.vals = 0)
  bounded : st.warn_count = 0 → ∀ a r, (a, r) ∈ st.rsvs →
      r.actual.items ≤ r.reserved.items ∧ r.actual.vals ≤ r.reserved.vals

theorem mem_modifyRsv2 {b : Nat} {r0 : Reservation} {l : RsvMap} {a : Nat}
    {r : Reservation} (h : (b, r0) ∈ modifyRsv l a r) :
    (b = a ∧ r0 = r) ∨ (b, r0) ∈ l := by
  rcases mem_modifyRsv h with h | h
  · injection h with h1 h2
    exact Or.inl ⟨h1, h2⟩
  · exact Or.inr h

theorem Inv_of_eq {st st' : SysState} (h : Inv st)
    (hr : st'.rsvs = st.rsvs)
    (hti : st'.tri.reserved_items = st.tri.reserved_items)
    (htv : st'.tri.reserved_vals = st.tri.reserved_vals)
    (hth : st'.tri.holders = st.tri.holders)
    (hw : st'.warn_count = st.warn_count) : Inv st' := by
  constructor
  · rw [hr]; exact h.nodup
  · rw [hti, hr]; exact h.items_eq
  · rw [htv, hr]; exact h.vals_eq
  · rw [hth, hr]; exact h.holders_eq
  · rw [hr]; exact h.entries
  · rw [hw, hr]; exact h.bounded

theorem Inv_initState : Inv initState := by
  constructor <;> simp [initState, keys, sumBy]

theorem Inv_acquired_hold {fits : Int → Int → Bool} {a : Nat} {cnt : ItemCount}
    {st : SysState} (hInv : Inv st) (hi : 0 < cnt.items) (hv : 0 ≤ cnt.vals) :
    Inv (acquired_hold fits a cnt st).2 := by
  unfold acquired_hold
  split
  · exact hInv
  · rename_i rsv hl
    have hmem := lookupRsv_mem hl
    have hent := hInv.entries a rsv hmem
    split
    · -- nested hold: only the holder counts move
      rename_i hh
      constructor
      · exact nodup_keys_modifyRsv _ _ hInv.nodup
      · simp only [sumBy_modifyRsv _ _ hInv.nodup hl, hInv.items_eq]
        omega
      · simp only [sumBy_modifyRsv _ _ hInv.nodup hl, hInv.vals_eq]
        omega
      · simp only [sumBy_modifyRsv _ _ hInv.nodup hl, hInv.holders_eq]
        omega
      · intro b r hbr
        rcases mem_modifyRsv2 hbr with ⟨rfl, rfl⟩ | hbr
        · refine ⟨show 0 ≤ rsv.holders + 1 by omega,
            hent.2.1, hent.2.2.1, ?_⟩
          intro hzero
          exact absurd (show rsv.holders + 1 = 0 from hzero)
            (by omega)
        · exact hInv.entries _ _ hbr
      · intro hwc b r hbr
        rcases mem_modifyRsv2 hbr with ⟨rfl, rfl⟩ | hbr
        · exact hInv.bounded hwc b rsv hmem
        · exact hInv.bounded hwc _ _ hbr
    · rename_i hh
      split
      · exact hInv
      · rename_i hwr
        split
        · -- fresh admission: the slot had no hold, so its reserved was zero
          rename_i hf
          have hh0 : rsv.holders = 0 := by
            by_contra hne
            exact hh hne
          have hres0 := hent.2.2.2 hh0
          constructor
          · exact nodup_keys_modifyRsv _ _ hInv.nodup
          · simp only [sumBy_modifyRsv _ _ hInv.nodup hl, hInv.items_eq]
            omega
          · simp only [sumBy_modifyRsv _ _ hInv.nodup hl, hInv.vals_eq]
            omega
          · simp only [sumBy_modifyRsv _ _ hInv.nodup hl, hInv.holders_eq]
            omega
          · intro b r hbr
            rcases mem_modifyRsv2 hbr with ⟨rfl, rfl⟩ | hbr
            · refine ⟨show 0 ≤ rsv.holders + 1 by omega,
                show 0 ≤ cnt.items by omega, show 0 ≤ cnt.vals by omega, ?_⟩
              intro hzero
              exact absurd (show rsv.holders + 1 = 0 from hzero)
                (by omega)
            · exact hInv.entries _ _ hbr
          · intro hwc b r hbr
            rcases mem_modifyRsv2 hbr with ⟨rfl, rfl⟩ | hbr
            · have hb := hInv.bounded hwc b rsv hmem
              exact ⟨show rsv.actual.items ≤ cnt.items by omega,
                     show rsv.actual.vals ≤ cnt.vals by omega⟩
            · exact hInv.bounded hwc _ _ hbr
        · exact Inv_of_eq hInv rfl rfl rfl rfl rfl

theorem Inv_removeZero {st : SysState} (hInv : Inv st) {a : Nat}
    {r : Reservation} (hl : lookupRsv st.rsvs a = some r)
    (hz : r.holders = 0) : Inv { st with rsvs := removeRsv st.rsvs a } := by
  have hent := hInv.entries a r (lookupRsv_mem hl)
  have hres0 := hent.2.2.2 hz
  constructor
  · exact nodup_keys_removeRsv _ hInv.nodup
  · simp only [sumBy_removeRsv _ hInv.nodup hl, hInv.items_eq]
    omega
  · simp only [sumBy_removeRsv _ hInv.nodup hl, hInv.vals_eq]
    omega
  · simp only [sumBy_removeRsv _ hInv.nodup hl, hInv.holders_eq]
    omega
  · intro b r hbr
    exact hInv.entries _ _ (mem_removeRsv hbr)
  · intro hwc b r hbr
    exact hInv.bounded hwc _ _ (mem_removeRsv hbr)

theorem Inv_insertFresh {st : SysState} (hInv : Inv st) {a : Nat}
    (hl : lookupRsv st.rsvs a = none) :
    Inv { st with rsvs := (a, newRsv) :: st.rsvs } := by
  have hsum : ∀ f : Reservation → Int,
      sumBy f ((a, newRsv) :: st.rsvs) = f newRsv + sumBy f st.rsvs :=
    fun f => rfl
  constructor
  · simp only [keys, List.map_cons, List.nodup_cons]
    exact ⟨(lookupRsv_eq_none_iff _ _).mp hl, hInv.nodup⟩
  · rw [hsum, hInv.items_eq]
    simp [newRsv]
  · rw [hsum, hInv.vals_eq]
    simp [newRsv]
  · rw [hsum, hInv.holders_eq]
    simp [newRsv]
  · intro b r hbr
    rcases List.mem_cons.mp hbr with heq | hbr
    · injection heq with h1 h2
      subst h2
      simp [newRsv]
    · exact hInv.entries _ _ hbr
  · intro hwc b r hbr
    rcases List.mem_cons.mp hbr with heq | hbr
    · injection heq with h1 h2
      subst h2
      simp [newRsv]
    · exact hInv.bounded hwc _ _ hbr

theorem Inv_holdAttempt {fits : Int → Int → Bool} {a : Nat} {cnt : ItemCount}
    {signal : Bool} {st : SysState} (hInv : Inv st) (hi : 0 < cnt.items)
    (hv : 0 ≤ cnt.vals) : Inv (holdAttempt fits a cnt signal st).2 := by
  unfold holdAttempt
  have hacq := @Inv_acquired_hold fits a cnt st hInv hi hv
  split
  · rename_i st1 heq
    rw [heq] at hacq
    exact hacq
  · rename_i st1 heq
    rw [heq] at hacq
    split
    · split
      · rename_i r hlr
        split
        · rename_i hz
          exact Inv_removeZero hacq hlr hz
        · exact hacq
      · exact hacq
    · exact hacq

theorem Inv_hold_trans {fits seg_fits : Int → Int → Bool} {a : Nat}
    {cnt : ItemCount} {signal allocFails : Bool} {st : SysState}
    (hInv : Inv st) :
    Inv (scoutfs_hold_trans fits seg_fits a cnt signal allocFails st).2 := by
  unfold scoutfs_hold_trans
  split
  · exact hInv
  · rename_i hcnt
    have hi : 0 < cnt.items := not_le.mp (not_or.mp hcnt).1
    have hv : 0 ≤ cnt.vals := not_lt.mp (not_or.mp hcnt).2
    split
    · exact hInv
    · split
      · exact hInv
      · split
        · rename_i hl
          split
          · exact hInv
          · exact Inv_holdAttempt (Inv_insertFresh hInv hl) hi hv
        · exact Inv_holdAttempt hInv hi hv

theorem Inv_release {a : Nat} {st : SysState} (hInv : Inv st) :
    Inv (scoutfs_release_trans a st) := by
  unfold scoutfs_release_trans
  split
  · exact hInv
  · split
    · exact hInv
    · rename_i rsv hl
      have hmem := lookupRsv_mem hl
      have hent := hInv.entries a rsv hmem
      split
      · exact hInv
      · rename_i hpos
        have hrp : 0 < rsv.holders := not_le.mp (not_or.mp hpos).1
        split
        · -- last hold: drop the slot and subtract its reserved capacity
          rename_i hz
          constructor
          · exact nodup_keys_removeRsv _ hInv.nodup
          · simp only [sumBy_removeRsv _ hInv.nodup hl, hInv.items_eq]
          · simp only [sumBy_removeRsv _ hInv.nodup hl, hInv.vals_eq]
          · simp only [sumBy_removeRsv _ hInv.nodup hl, hInv.holders_eq]
            omega
          · intro b r hbr
            exact hInv.entries _ _ (mem_removeRsv hbr)
          · intro hwc b r hbr
            exact hInv.bounded hwc _ _ (mem_removeRsv hbr)
        · -- a nested hold remains: only the holder counts move
          rename_i hnz
          constructor
          · exact nodup_keys_modifyRsv _ _ hInv.nodup
          · simp only [sumBy_modifyRsv _ _ hInv.nodup hl, hInv.items_eq]
            omega
          · simp only [sumBy_modifyRsv _ _ hInv.nodup hl, hInv.vals_eq]
            omega
          · simp only [sumBy_modifyRsv _ _ hInv.nodup hl, hInv.holders_eq]
            omega
          · intro b r hbr
            rcases mem_modifyRsv2 hbr with ⟨rfl, rfl⟩ | hbr
            · refine ⟨show 0 ≤ rsv.holders - 1 by omega,
                hent.2.1, hent.2.2.1, ?_⟩
              intro hzero
              exact absurd (show rsv.holders - 1 = 0 from hzero) hnz
            · exact hInv.entries _ _ hbr
          · intro hwc b r hbr
            rcases mem_modifyRsv2 hbr with ⟨rfl, rfl⟩ | hbr
            · exact hInv.bounded hwc b rsv hmem
            · exact hInv.bounded hwc _ _ hbr

theorem Inv_track {a : Nat} {items vals : Int} {st : SysState}
    (hInv : Inv st) : Inv (scoutfs_trans_track_item a items vals st).1 := by
  unfold scoutfs_trans_track_item
  split
  · exact hInv
  · split
    · exact hInv
    · rename_i rsv hl
      have hmem := lookupRsv_mem hl
      have hent := hInv.entries a rsv hmem
      split
      · -- the WARN_ON_ONCE fired: warn_count leaves zero
        rename_i hexc
        constructor
        · exact nodup_keys_modifyRsv _ _ hInv.nodup
        · simp only [sumBy_modifyRsv _ _ hInv.nodup hl, hInv.items_eq]
          omega
        · simp only [sumBy_modifyRsv _ _ hInv.nodup hl, hInv.vals_eq]
          omega
        · simp only [sumBy_modifyRsv _ _ hInv.nodup hl, hInv.holders_eq]
          omega
        · intro b r hbr
          rcases mem_modifyRsv2 hbr with ⟨rfl, rfl⟩ | hbr
          · exact ⟨hent.1, hent.2.1, hent.2.2.1, hent.2.2.2⟩
          · exact hInv.entries _ _ hbr
        · intro hwc
          exact absurd (show st.warn_count + 1 = 0 from hwc) (by omega)
      · rename_i hexc
        have hni : rsv.actual.items + items ≤ rsv.reserved.items :=
          not_lt.mp (not_or.mp hexc).1
        have hnv : rsv.actual.vals + vals ≤ rsv.reserved.vals :=
          not_lt.mp (not_or.mp hexc).2
        constructor
        · exact nodup_keys_modifyRsv _ _ hInv.nodup
        · simp only [sumBy_modifyRsv _ _ hInv.nodup hl, hInv.items_eq]
          omega
        · simp only [sumBy_modifyRsv _ _ hInv.nodup hl, hInv.vals_eq]
          omega
        · simp only [sumBy_modifyRsv _ _ hInv.nodup hl, hInv.holders_eq]
          omega
        · intro b r hbr
          rcases mem_modifyRsv2 hbr with ⟨rfl, rfl⟩ | hbr
          · exact ⟨hent.1, hent.2.1, hent.2.2.1, hent.2.2.2⟩
          · exact hInv.entries _ _ hbr
        · intro hwc b r hbr
          rcases mem_modifyRsv2 hbr with ⟨rfl, rfl⟩ | hbr
          · exact ⟨hni, hnv⟩
          · exact hInv.bounded hwc _ _ hbr

theorem Inv_applyOp {fits seg_fits : Int → Int → Bool} {st : SysState}
    (hInv : Inv st) (op : Op) : Inv (applyOp fits seg_fits st op) := by
  cases op with
  | hold a cnt signal allocFails => exact Inv_hold_trans hInv
  | release a => exact Inv_release hInv
  | track a i v => exact Inv_track hInv
  | drain w => exact Inv_of_eq hInv rfl rfl rfl rfl rfl
  | writeEnd => exact Inv_of_eq hInv rfl rfl rfl rfl rfl

theorem Inv_foldl {fits seg_fits : Int → Int → Bool} :
    ∀ (ops : List Op) (st : SysState), Inv st →
      Inv (ops.foldl (applyOp fits seg_fits) st)
  | [], _, h => h
  | op :: rest, _, h => Inv_foldl rest _ (Inv_applyOp h op)

theorem Inv_runOps (fits seg_fits : Int → Int → Bool) (ops : List Op) :
    Inv (runOps fits seg_fits ops) :=
  Inv_foldl ops initState Inv_initState

/-! ### The capacity predicate stays true on the admitted totals

`scoutfs_item_dirty_fits_single` lives in item.c, outside this file's
source; per the spec it asks whether the summed reservations "can still
fit into a single output segment", so it is downward closed in both
arguments.  `FitsAntitone` states that spec-modelled property. -/

/-- Modelled from the spec: the external capacity predicate
`ItemStore::fits_single` answers whether a reserved total still fits one
output segment, so shrinking the totals can never turn a fitting state
into a non-fitting one. -/
def FitsAntitone (fits : Int → Int → Bool) : Prop :=
  ∀ a b a' b', a' ≤ a → b' ≤ b → fits a b = true → fits a' b' = true

theorem fits_acquired_hold {fits : Int → Int → Bool} {a : Nat}
    {cnt : ItemCount} {st : SysState}
    (hfits : fits st.tri.reserved_items st.tri.reserved_vals = true) :
    fits (acquired_hold fits a cnt st).2.tri.reserved_items
         (acquired_hold fits a cnt st).2.tri.reserved_vals = true := by
  unfold acquired_hold
  split
  · exact hfits
  · split
    · exact hfits
    · split
      · exact hfits
      · split
        · rename_i hf
          exact hf
        · exact hfits

theorem fits_holdAttempt {fits : Int → Int → Bool} {a : Nat}
    {cnt : ItemCount} {signal : Bool} {st : SysState}
    (hfits : fits st.tri.reserved_items st.tri.reserved_vals = true) :
    fits (holdAttempt fits a cnt signal st).2.tri.reserved_items
         (holdAttempt fits a cnt signal st).2.tri.reserved_vals = true := by
  unfold holdAttempt
  have hacq := @fits_acquired_hold fits a cnt st hfits
  split
  · rename_i st1 heq
    rw [heq] at hacq
    exact hacq
  · rename_i st1 heq
    rw [heq] at hacq
    split
    · split
      · split
        · exact hacq
        · exact hacq
      · exact hacq
    · exact hacq

theorem fits_hold_trans {fits seg_fits : Int → Int → Bool} {a : Nat}
    {cnt : ItemCount} {signal allocFails : Bool} {st : SysState}
    (hfits : fits st.tri.reserved_items st.tri.reserved_vals = true) :
    fits (scoutfs_hold_trans fits seg_fits a cnt signal allocFails st).2.tri.reserved_items
         (scoutfs_hold_trans fits seg_fits a cnt signal allocFails st).2.tri.reserved_vals
      = true := by
  unfold scoutfs_hold_trans
  split
  · exact hfits
  · split
    · exact hfits
    · split
      · exact hfits
      · split
        · split
          · exact hfits
          · exact fits_holdAttempt hfits
        · exact fits_holdAttempt hfits

theorem fits_release {fits : Int → Int → Bool} (hmono : FitsAntitone fits)
    {a : Nat} {st : SysState} (hInv : Inv st)
    (hfits : fits st.tri.reserved_items st.tri.reserved_vals = true) :
    fits (scoutfs_release_trans a st).tri.reserved_items
         (scoutfs_release_trans a st).tri.reserved_vals = true := by
  unfold scoutfs_release_trans
  split
  · exact hfits
  · split
    · exact hfits
    · rename_i rsv hl
      have hent := hInv.entries a rsv (lookupRsv_mem hl)
      have h1 := hent.2.1
      have h2 := hent.2.2.1
      split
      · exact hfits
      · split
        · refine hmono st.tri.reserved_items st.tri.reserved_vals _ _ ?_ ?_ hfits
          · show st.tri.reserved_items - rsv.reserved.items ≤ st.tri.reserved_items
            omega
          · show st.tri.reserved_vals - rsv.reserved.vals ≤ st.tri.reserved_vals
            omega
        · exact hfits

theorem fits_track {fits : Int → Int → Bool} {a : Nat} {i v : Int}
    {st : SysState}
    (hfits : fits st.tri.reserved_items st.tri.reserved_vals = true) :
    fits (scoutfs_trans_track_item a i v st).1.tri.reserved_items
         (scoutfs_trans_track_item a i v st).1.tri.reserved_vals = true := by
  unfold scoutfs_trans_track_item
  split
  · exact hfits
  · split
    · exact hfits
    · split
      · exact hfits
      · exact hfits

theorem fits_applyOp {fits seg_fits : Int → Int → Bool}
    (hmono : FitsAntitone fits) {st : SysState} (hInv : Inv st)
    (hfits : fits st.tri.reserved_items st.tri.reserved_vals = true)
    (op : Op) :
    fits (applyOp fits seg_fits st op).tri.reserved_items
         (applyOp fits seg_fits st op).tri.reserved_vals = true := by
  cases op with
  | hold a cnt signal allocFails => exact fits_hold_trans hfits
  | release a => exact fits_release hmono hInv hfits
  | track a i v => exact fits_track hfits
  | drain w => exact hfits
  | writeEnd => exact hfits

theorem fits_foldl {fits seg_fits : Int → Int → Bool}
    (hmono : FitsAntitone fits) :
    ∀ (ops : List Op) (st : SysState), Inv st →
      fits st.tri.reserved_items st.tri.reserved_vals = true →
      fits (ops.foldl (applyOp fits seg_fits) st).tri.reserved_items
           (ops.foldl (applyOp fits seg_fits) st).tri.reserved_vals = true
  | [], _, _, hf => hf
  | op :: rest, _, hInv, hf =>
    fits_foldl hmono rest _ (Inv_applyOp hInv op)
      (fits_applyOp hmono hInv hf op)

theorem fits_runOps {fits : Int → Int → Bool} (seg_fits : Int → Int → Bool)
    (hmono : FitsAntitone fits) (h00 : fits 0 0 = true) (ops : List Op) :
    fits (runOps fits seg_fits ops).tri.reserved_items
         (runOps fits seg_fits ops).tri.reserved_vals = true :=
  fits_foldl hmono ops initState Inv_initState h00

/-! ### Characterizing the pipeline and the sync wait -/

/-- A pipeline step succeeded in the environment. -/
def stepOk (env : PipelineEnv) : Step → Bool :=
  fun s => decide (env.stepRet s = 0)

theorem runSteps_eq (f : Step → Int) (l : List Step) :
    runSteps f l =
      (l.takeWhile (fun s => decide (f s = 0)) ++
         (l.dropWhile (fun s => decide (f s = 0))).take 1,
       match l.dropWhile (fun s => decide (f s = 0)) with
       | [] => 0
       | s :: _ => f s) := by
  induction l with
  | nil => simp [runSteps]
  | cons s rest ih =>
    by_cases h : f s = 0
    · simp [runSteps, h, List.takeWhile_cons, List.dropWhile_cons, ih]
    · simp [runSteps, h, List.takeWhile_cons, List.dropWhile_cons]

theorem waitWriteAttempted_eq (c : Nat) (r : Int) (obs : List (Nat × Int)) :
    waitWriteAttempted { count := c, ret := r } obs =
      (match obs.find? (fun p => decide (c < p.1)) with
       | some p => p.2
       | none => -ERESTARTSYS) := by
  induction obs generalizing r with
  | nil => rfl
  | cons p rest ih =>
    by_cases h : c < p.1
    · simp [waitWriteAttempted, write_attempted, h, List.find?_cons_of_pos]
    · rw [List.find?_cons_of_neg _ (by simpa using h)]
      simp only [waitWriteAttempted, write_attempted, if_neg h]
      exact ih r

theorem write_func_write_count (env : PipelineEnv) (st : SysState) :
    (scoutfs_trans_write_func env st).1.write_count = st.write_count + 1 := by
  simp only [scoutfs_trans_write_func, scoutfs_trans_restart_sync_deadline]
  repeat' split
  all_goals rfl

theorem write_func_write_ret (env : PipelineEnv) (st : SysState) :
    (scoutfs_trans_write_func env st).1.write_ret = commitAttemptRet env st :=
  rfl

theorem write_func_trace (env : PipelineEnv) (st : SysState) :
    (scoutfs_trans_write_func env st).2 = commitAttemptTrace env st :=
  rfl

/-! ### The claims -/

/-- Claim C1: when the item store reports dirty items, the commit work
function runs the pipeline steps in exactly the order inode writeback
(sync), alloc_segno, segment allocation, draining dirty items into the
segment, segment write submission, inode writeback (no sync), waiting
for I/O completion, record_segment at level 0, advance_seq; the first
failing step short-circuits all the remaining ones (the executed steps
are the longest all-succeeding head of the list followed by the single
failing step, none of them re-run or undone), and the recorded return
code is that first failure (0 when every step succeeds). -/
theorem claim_C1 (env : PipelineEnv) (st : SysState)
    (hdirty : st.dirty = true) :
    pipelineSteps = [Step.inodeWritebackSync, Step.allocSegno, Step.segAlloc,
      Step.itemDirtySeg, Step.segSubmitWrite, Step.inodeWritebackNoSync,
      Step.bioWaitComp, Step.recordSegment, Step.advanceSeq] ∧
    (scoutfs_trans_write_func env st).2 =
      pipelineSteps.takeWhile (stepOk env) ++
        (pipelineSteps.dropWhile (stepOk env)).take 1 ∧
    (scoutfs_trans_write_func env st).1.write_ret =
      (match pipelineSteps.dropWhile (stepOk env) with
       | [] => 0
       | s :: _ => env.stepRet s) := by
  refine ⟨rfl, ?_, ?_⟩
  · rw [write_func_trace]
    simp only [commitAttemptTrace, stepOk]
    rw [if_pos hdirty, runSteps_eq]
    rfl
  · rw [write_func_write_ret]
    simp only [commitAttemptRet, stepOk]
    rw [if_pos hdirty, runSteps_eq]
    rfl

/-- Witness for C1 at a concrete all-succeeding environment and a dirty
initial state. -/
def envC1 : PipelineEnv :=
  { stepRet := fun _ => 0, segBytes := 4096, newSeq := 2, worker := 5 }

theorem claim_C1_witness :
    ({ initState with dirty := true } : SysState).dirty = true ∧
    (scoutfs_trans_write_func envC1 { initState with dirty := true }).2 =
      pipelineSteps.takeWhile (stepOk envC1) ++
        (pipelineSteps.dropWhile (stepOk envC1)).take 1 ∧
    (scoutfs_trans_write_func envC1 { initState with dirty := true }).1.write_ret =
      (match pipelineSteps.dropWhile (stepOk envC1) with
       | [] => 0
       | s :: _ => envC1.stepRet s) :=
  ⟨rfl, (claim_C1 envC1 { initState with dirty := true } rfl).2.1,
        (claim_C1 envC1 { initState with dirty := true } rfl).2.2⟩

/-- C4 helper: a commit-work environment whose external calls all
succeed. -/
def envC4 : PipelineEnv :=
  { stepRet := fun _ => 0, segBytes := 0, newSeq := 1, worker := 7 }

/-- Claim C4 (counterexample): at a commit run with no dirty items and
an expired deadline the code performs exactly the single advance_seq
call of an empty commit, yet does not increment the trans_commit_timer
counter: trans.c:126-128 bumps that counter only inside the dirty
branch, so the claim's "increments the trans_commit_timer counter" is
false on this input. -/
theorem claim_C4_counterexample :
    (({ initState with deadline_expired := true } : SysState).dirty = false ∧
     ({ initState with deadline_expired := true } : SysState).deadline_expired = true ∧
     (scoutfs_trans_write_func envC4
        { initState with deadline_expired := true }).2 = [Step.advanceSeq]) ∧
    ¬ ((scoutfs_trans_write_func envC4
          { initState with deadline_expired := true }).1.counters.trans_commit_timer =
        ({ initState with deadline_expired := true } :
            SysState).counters.trans_commit_timer + 1) := by
  constructor
  · exact ⟨rfl, rfl, rfl⟩
  · decide

/-- Claim C4 (amended): for every commit run in which the item store has
no dirty items and the deadline has expired, the committer makes exactly
one advance_seq call, leaves the trans_commit_timer counter unchanged,
and allocates no segment. -/
theorem claim_C4_amended (env : PipelineEnv) (st : SysState)
    (hnd : st.dirty = false) (hdl : st.deadline_expired = true) :
    (scoutfs_trans_write_func env st).2 = [Step.advanceSeq] ∧
    (scoutfs_trans_write_func env st).1.counters.trans_commit_timer =
      st.counters.trans_commit_timer ∧
    Step.allocSegno ∉ (scoutfs_trans_write_func env st).2 ∧
    Step.segAlloc ∉ (scoutfs_trans_write_func env st).2 := by
  have htrace : (scoutfs_trans_write_func env st).2 = [Step.advanceSeq] := by
    rw [write_func_trace]
    simp only [commitAttemptTrace]
    rw [if_neg (by simp [hnd]), if_pos hdl]
  refine ⟨htrace, ?_, ?_, ?_⟩
  · simp only [scoutfs_trans_write_func, scoutfs_trans_restart_sync_deadline]
    repeat' split
    all_goals simp_all
  · rw [htrace]
    simp
  · rw [htrace]
    simp

theorem claim_C4_amended_witness :
    (scoutfs_trans_write_func envC4 { initState with deadline_expired := true }).2 =
      [Step.advanceSeq] ∧
    (scoutfs_trans_write_func envC4
        { initState with deadline_expired := true }).1.counters.trans_commit_timer =
      ({ initState with deadline_expired := true } :
          SysState).counters.trans_commit_timer ∧
    Step.allocSegno ∉ (scoutfs_trans_write_func envC4
        { initState with deadline_expired := true }).2 :=
  ⟨(claim_C4_amended envC4 _ rfl rfl).1,
   (claim_C4_amended envC4 _ rfl rfl).2.1,
   (claim_C4_amended envC4 _ rfl rfl).2.2.1⟩

/-- Claim C6: every completed commit attempt, success or failure,
increments write_count by exactly one and stores the attempt's result;
a waiter whose snapshot is the pre-attempt count then observes the wait
condition true with exactly that result captured; a failed attempt on a
dirty transaction preserves the dirty state for retry. -/
theorem claim_C6 (env : PipelineEnv) (st : SysState) :
    (scoutfs_trans_write_func env st).1.write_count = st.write_count + 1 ∧
    (scoutfs_trans_write_func env st).1.write_ret = commitAttemptRet env st ∧
    (∀ r : Int,
      write_attempted (scoutfs_trans_write_func env st).1.write_count
        (scoutfs_trans_write_func env st).1.write_ret
        { count := st.write_count, ret := r } =
      (true, { count := st.write_count, ret := commitAttemptRet env st })) ∧
    (st.dirty = true → commitAttemptRet env st ≠ 0 →
      (scoutfs_trans_write_func env st).1.dirty = true) := by
  refine ⟨write_func_write_count env st, write_func_write_ret env st, ?_, ?_⟩
  · intro r
    rw [write_func_write_count, write_func_write_ret]
    simp [write_attempted]
  · intro hd hr
    simp only [scoutfs_trans_write_func, scoutfs_trans_restart_sync_deadline]
    repeat' split
    all_goals simp_all [commitAttemptRet]

/-- Witness for C6: a concrete environment in which the segment write
submission fails with an I/O error. -/
def envC6 : PipelineEnv :=
  { stepRet := fun s => if s = Step.segSubmitWrite then -5 else 0,
    segBytes := 4096, newSeq := 3, worker := 5 }

theorem claim_C6_witness :
    (scoutfs_trans_write_func envC6 { initState with dirty := true }).1.write_count =
      ({ initState with dirty := true } : SysState).write_count + 1 ∧
    write_attempted
      (scoutfs_trans_write_func envC6 { initState with dirty := true }).1.write_count
      (scoutfs_trans_write_func envC6 { initState with dirty := true }).1.write_ret
      { count := ({ initState with dirty := true } : SysState).write_count, ret := 0 } =
      (true, { count := ({ initState with dirty := true } : SysState).write_count,
               ret := commitAttemptRet envC6 { initState with dirty := true } }) ∧
    commitAttemptRet envC6 { initState with dirty := true } = -5 ∧
    (scoutfs_trans_write_func envC6 { initState with dirty := true }).1.dirty = true :=
  ⟨(claim_C6 envC6 { initState with dirty := true }).1,
   (claim_C6 envC6 { initState with dirty := true }).2.2.1 0,
   by decide,
   (claim_C6 envC6 { initState with dirty := true }).2.2.2 rfl (by decide)⟩

/-- Claim C2: after any finite sequence of hold/release/track operations
(with the commit worker's drain and finish interleaved) by any set of
actors, the `trans_info` totals reserved_items and reserved_vals equal
the componentwise sums of the reserved fields over the reservation
slots — equivalently over the live reservations, those whose holders
count is non-zero — and the `trans_info` holders count equals the sum of
the reservations' holders fields. -/
theorem claim_C2 (fits seg_fits : Int → Int → Bool) (ops : List Op) :
    ((runOps fits seg_fits ops).tri.reserved_items =
       sumBy (fun r => r.reserved.items) (runOps fits seg_fits ops).rsvs ∧
     (runOps fits seg_fits ops).tri.reserved_vals =
       sumBy (fun r => r.reserved.vals) (runOps fits seg_fits ops).rsvs ∧
     (runOps fits seg_fits ops).tri.holders =
       sumBy (fun r => r.holders) (runOps fits seg_fits ops).rsvs) ∧
    ((runOps fits seg_fits ops).tri.reserved_items =
       sumBy (fun r => r.reserved.items)
         ((runOps fits seg_fits ops).rsvs.filter (fun p => p.2.holders != 0)) ∧
     (runOps fits seg_fits ops).tri.reserved_vals =
       sumBy (fun r => r.reserved.vals)
         ((runOps fits seg_fits ops).rsvs.filter (fun p => p.2.holders != 0)) ∧
     (runOps fits seg_fits ops).tri.holders =
       sumBy (fun r => r.holders)
         ((runOps fits seg_fits ops).rsvs.filter (fun p => p.2.holders != 0))) := by
  have hInv := Inv_runOps fits seg_fits ops
  have hzero : ∀ q ∈ (runOps fits seg_fits ops).rsvs,
      (q.2.holders != 0) = false →
      q.2.reserved.items = 0 ∧ q.2.reserved.vals = 0 ∧ q.2.holders = 0 := by
    intro q hq hfq
    have h0 : q.2.holders = 0 := by
      simpa using hfq
    have hent := hInv.entries q.1 q.2 hq
    exact ⟨(hent.2.2.2 h0).1, (hent.2.2.2 h0).2, h0⟩
  refine ⟨⟨hInv.items_eq, hInv.vals_eq, hInv.holders_eq⟩, ?_, ?_, ?_⟩
  · rw [sumBy_filter_eq _ _ _ (fun q hq hf => (hzero q hq hf).1)]
    exact hInv.items_eq
  · rw [sumBy_filter_eq _ _ _ (fun q hq hf => (hzero q hq hf).2.1)]
    exact hInv.vals_eq
  · rw [sumBy_filter_eq _ _ _ (fun q hq hf => (hzero q hq hf).2.2)]
    exact hInv.holders_eq

/-- Claim C3: a first (non-nested) hold attempt whose requested count
does not fit on top of the summed reserved capacity increments the
trans_commit_full counter, kicks a commit, and does not admit the
caller; and — for the spec-modelled downward-closed capacity predicate —
after any successful admission in any reachable state the capacity
predicate holds on the `trans_info` reserved totals. -/
theorem claim_C3 (fits seg_fits : Int → Int → Bool)
    (hmono : FitsAntitone fits) (h00 : fits 0 0 = true) :
    (∀ (st : SysState) (a : Nat) (cnt : ItemCount) (rsv : Reservation),
      lookupRsv st.rsvs a = some rsv → rsv.holders = 0 →
      st.tri.writing = false →
      fits (st.tri.reserved_items + cnt.items)
           (st.tri.reserved_vals + cnt.vals) = false →
      acquired_hold fits a cnt st =
        (false, queue_trans_work { st with
           counters := { st.counters with
             trans_commit_full := st.counters.trans_commit_full + 1 } })) ∧
    (∀ (ops : List Op) (a : Nat) (cnt : ItemCount) (signal allocFails : Bool),
      (scoutfs_hold_trans fits seg_fits a cnt signal allocFails
         (runOps fits seg_fits ops)).1 = HoldOutcome.done 0 →
      fits (scoutfs_hold_trans fits seg_fits a cnt signal allocFails
              (runOps fits seg_fits ops)).2.tri.reserved_items
           (scoutfs_hold_trans fits seg_fits a cnt signal allocFails
              (runOps fits seg_fits ops)).2.tri.reserved_vals = true) := by
  constructor
  · intro st a cnt rsv hl hh hwr hf
    unfold acquired_hold
    split
    · rename_i heq
      rw [hl] at heq
      simp at heq
    · rename_i rsv2 heq
      rw [hl] at heq
      injection heq with h2
      subst h2
      rw [if_neg (fun hne => hne hh), if_neg (by simp [hwr]),
          if_neg (by simp [hf])]
  · intro ops a cnt signal allocFails _
    have h := fits_runOps seg_fits hmono h00
      (ops ++ [Op.hold a cnt signal allocFails])
    simpa [runOps, List.foldl_append, applyOp] using h

/-- Witness helpers for C3: a concrete downward-closed capacity bound
and a state against which a request does not fit. -/
def fitsW : Int → Int → Bool := fun i v => decide (i ≤ 10 ∧ v ≤ 10)

def segW : Int → Int → Bool := fun _ _ => true

def stW : SysState :=
  { initState with
    tri := { reserved_items := 8, reserved_vals := 0, holders := 0,
             writing := false },
    rsvs := [(1, newRsv)] }

theorem claim_C3_witness :
    (acquired_hold fitsW 1 { items := 5, vals := 0 } stW =
      (false, queue_trans_work { stW with
         counters := { stW.counters with
           trans_commit_full := stW.counters.trans_commit_full + 1 } })) ∧
    fitsW (scoutfs_hold_trans fitsW segW 2 { items := 3, vals := 3 } false false
             (runOps fitsW segW [])).2.tri.reserved_items
          (scoutfs_hold_trans fitsW segW 2 { items := 3, vals := 3 } false false
             (runOps fitsW segW [])).2.tri.reserved_vals = true := by
  have hmono : FitsAntitone fitsW := by
    intro a b a' b' ha hb h
    simp only [fitsW, decide_eq_true_eq] at h ⊢
    omega
  have h := claim_C3 fitsW segW hmono (by decide)
  exact ⟨h.1 stW 1 { items := 5, vals := 0 } newRsv (by decide) (by decide)
           rfl (by decide),
         h.2 [] 2 { items := 3, vals := 3 } false false (by decide)⟩

/-- Claim C5: sync with wait=false kicks the committer and returns 0
immediately; sync with wait=true snapshots write_count before kicking,
and returns the write result captured at the first observation whose
write_count strictly exceeds the snapshot; if no observation satisfies
the condition before the wait is cut short, it returns -ERESTARTSYS
(Interrupted). -/
theorem claim_C5 (st : SysState) (obs : List (Nat × Int)) :
    scoutfs_trans_sync false obs st = (queue_trans_work st, 0) ∧
    (queue_trans_work st).work_pending = true ∧
    (queue_trans_work st).deadline_expired = false ∧
    (scoutfs_trans_sync true obs st).1 = queue_trans_work st ∧
    (scoutfs_trans_sync true obs st).2 =
      (match obs.find? (fun p => decide (st.write_count < p.1)) with
       | some p => p.2
       | none => -ERESTARTSYS) := by
  refine ⟨rfl, rfl, rfl, rfl, ?_⟩
  show waitWriteAttempted { count := st.write_count, ret := 0 } obs = _
  rw [waitWriteAttempted_eq]

/-- Claim C7: for the task that is running the commit
(`current == sbi->trans_task`), hold returns success immediately without
allocating a reservation or touching any state (given the argument
checks that precede the shortcut pass), and track and release are
no-ops that leave the reservation storage and the `trans_info`
unchanged. -/
theorem claim_C7 (fits seg_fits : Int → Int → Bool) (st : SysState) (a : Nat)
    (cnt : ItemCount) (signal allocFails : Bool) (i v : Int)
    (htask : st.trans_task = some a) :
    (0 < cnt.items → 0 ≤ cnt.vals → seg_fits cnt.items cnt.vals = true →
      scoutfs_hold_trans fits seg_fits a cnt signal allocFails st =
        (HoldOutcome.done 0, st)) ∧
    scoutfs_trans_track_item a i v st = (st, false) ∧
    scoutfs_release_trans a st = st := by
  refine ⟨?_, ?_, ?_⟩
  · intro h1 h2 h3
    unfold scoutfs_hold_trans
    rw [if_neg (by omega), if_neg (by simp [h3]), if_pos htask]
  · unfold scoutfs_trans_track_item
    rw [if_pos htask]
  · unfold scoutfs_release_trans
    rw [if_pos htask]

def stW7 : SysState := { initState with trans_task := some 3 }

theorem claim_C7_witness :
    scoutfs_hold_trans fitsW segW 3 { items := 2, vals := 2 } false false stW7 =
      (HoldOutcome.done 0, stW7) ∧
    scoutfs_trans_track_item 3 1 1 stW7 = (stW7, false) ∧
    scoutfs_release_trans 3 stW7 = stW7 := by
  have h := claim_C7 fitsW segW stW7 3 { items := 2, vals := 2 }
    false false 1 1 rfl
  exact ⟨h.1 (by decide) (by decide) (by decide), h.2.1, h.2.2⟩

/-- Claim C8: a hold whose ItemCount has items ≤ 0, or vals < 0, or that
does not by itself fit a single segment, returns -EINVAL and changes no
manager or reservation state. -/
theorem claim_C8 (fits seg_fits : Int → Int → Bool) (st : SysState) (a : Nat)
    (cnt : ItemCount) (signal allocFails : Bool)
    (hbad : cnt.items ≤ 0 ∨ cnt.vals < 0 ∨
      seg_fits cnt.items cnt.vals = false) :
    scoutfs_hold_trans fits seg_fits a cnt signal allocFails st =
      (HoldOutcome.done (-EINVAL), st) := by
  unfold scoutfs_hold_trans
  by_cases h0 : cnt.items ≤ 0 ∨ cnt.vals < 0
  · rw [if_pos h0]
  · rw [if_neg h0]
    have h3 : seg_fits cnt.items cnt.vals = false := by
      rcases hbad with h | h | h
      · exact absurd (Or.inl h) h0
      · exact absurd (Or.inr h) h0
      · exact h
    rw [if_pos (by simp [h3])]

theorem claim_C8_witness :
    scoutfs_hold_trans fitsW segW 4 { items := 0, vals := 5 } false false
        initState =
      (HoldOutcome.done (-EINVAL), initState) :=
  claim_C8 fitsW segW initState 4 { items := 0, vals := 5 } false false
    (Or.inl (by decide))

/-- Claim C9: in every reachable state of the hold/release/track system
in which no track warning has fired, every reservation satisfies
actual ≤ reserved componentwise; and every track call by a non-commit
task that would push actual past reserved in either component fires the
loud WARN_ON_ONCE assertion. -/
theorem claim_C9 (fits seg_fits : Int → Int → Bool) (ops : List Op) :
    ((runOps fits seg_fits ops).warn_count = 0 →
      ∀ a r, (a, r) ∈ (runOps fits seg_fits ops).rsvs →
        r.actual.items ≤ r.reserved.items ∧
        r.actual.vals ≤ r.reserved.vals) ∧
    (∀ (st : SysState) (a : Nat) (i v : Int) (rsv : Reservation),
      lookupRsv st.rsvs a = some rsv → ¬ st.trans_task = some a →
      (rsv.reserved.items < rsv.actual.items + i ∨
       rsv.reserved.vals < rsv.actual.vals + v) →
      (scoutfs_trans_track_item a i v st).2 = true ∧
      (scoutfs_trans_track_item a i v st).1.warn_count = st.warn_count + 1) := by
  constructor
  · exact (Inv_runOps fits seg_fits ops).bounded
  · intro st a i v rsv hl htask hexc
    have heval : scoutfs_trans_track_item a i v st =
        ({ st with
           rsvs := modifyRsv st.rsvs a
             { rsv with actual := { items := rsv.actual.items + i,
                                    vals := rsv.actual.vals + v } },
           warn_count := st.warn_count + 1 }, true) := by
      unfold scoutfs_trans_track_item
      rw [if_neg htask]
      split
      · rename_i heq
        rw [hl] at heq
        simp at heq
      · rename_i rsv2 heq
        rw [hl] at heq
        injection heq with h2
        subst h2
        rw [if_pos hexc]
    rw [heval]
    exact ⟨rfl, rfl⟩

def rW9 : Reservation :=
  { magic := SCOUTFS_RESERVATION_MAGIC, holders := 1,
    reserved := { items := 5, vals := 5 }, actual := { items := 2, vals := 2 } }

def opsW9 : List Op :=
  [Op.hold 1 { items := 5, vals := 5 } false false, Op.track 1 2 2]

def stW9 : SysState := { initState with rsvs := [(1, rW9)] }

theorem claim_C9_witness :
    ((runOps fitsW segW opsW9).warn_count = 0 ∧
     (1, rW9) ∈ (runOps fitsW segW opsW9).rsvs ∧
     rW9.actual.items ≤ rW9.reserved.items ∧
     rW9.actual.vals ≤ rW9.reserved.vals) ∧
    ((scoutfs_trans_track_item 1 10 0 stW9).2 = true ∧
     (scoutfs_trans_track_item 1 10 0 stW9).1.warn_count =
       stW9.warn_count + 1) := by
  have h := claim_C9 fitsW segW opsW9
  have hb := h.1 (by decide) 1 rW9 (by decide)
  exact ⟨⟨by decide, by decide, hb.1, hb.2⟩,
         h.2 stW9 1 10 0 rW9 (by decide) (by decide) (by decide)⟩

/-- Claim C10: a task that already owns a reservation with a positive
holders count gets a nested hold immediately — even while the writer's
writing flag is true and even with a signal pending, so the call cannot
return Interrupted and does not wait — and the only state change is the
increment of the reservation's and the `trans_info` holders counts; the
reserved capacities are untouched. -/
theorem claim_C10 (fits seg_fits : Int → Int → Bool) (st : SysState)
    (a : Nat) (cnt : ItemCount) (signal allocFails : Bool)
    (rsv : Reservation) (hl : lookupRsv st.rsvs a = some rsv)
    (hh : 0 < rsv.holders) (htask : ¬ st.trans_task = some a)
    (hi : 0 < cnt.items) (hv : 0 ≤ cnt.vals)
    (hseg : seg_fits cnt.items cnt.vals = true) :
    scoutfs_hold_trans fits seg_fits a cnt signal allocFails st =
      (HoldOutcome.done 0,
       { st with
         rsvs := modifyRsv st.rsvs a { rsv with holders := rsv.holders + 1 },
         tri := { st.tri with holders := st.tri.holders + 1 } }) := by
  unfold scoutfs_hold_trans
  rw [if_neg (by omega), if_neg (by simp [hseg]), if_neg htask]
  split
  · rename_i heq
    rw [hl] at heq
    simp at heq
  · rename_i rsv2 heq
    unfold holdAttempt
    have hacq : acquired_hold fits a cnt st =
        (true, { st with
          rsvs := modifyRsv st.rsvs a { rsv with holders := rsv.holders + 1 },
          tri := { st.tri with holders := st.tri.holders + 1 } }) := by
      unfold acquired_hold
      split
      · rename_i heq2
        rw [hl] at heq2
        simp at heq2
      · rename_i rsv3 heq2
        rw [hl] at heq2
        injection heq2 with h3
        subst h3
        rw [if_pos (by omega)]
    rw [hacq]

def rW10 : Reservation :=
  { magic := SCOUTFS_RESERVATION_MAGIC, holders := 2,
    reserved := { items := 4, vals := 4 }, actual := { items := 1, vals := 1 } }

def stW10 : SysState :=
  { initState with
    rsvs := [(6, rW10)],
    tri := { reserved_items := 4, reserved_vals := 4, holders := 2,
             writing := true } }

theorem claim_C10_witness :
    scoutfs_hold_trans fitsW segW 6 { items := 9, vals := 9 } true false
        stW10 =
      (HoldOutcome.done 0,
       { stW10 with
         rsvs := modifyRsv stW10.rsvs 6
           { rW10 with holders := rW10.holders + 1 },
         tri := { stW10.tri with holders := stW10.tri.holders + 1 } }) :=
  claim_C10 fitsW segW stW10 6 { items := 9, vals := 9 } true false rW10
    (by decide) (by decide) (by decide) (by decide) (by decide) (by decide)

end ScoutfsTrans
